import Mathlib

/-!
Verification development for the eclipse-magnitude scripts of the repository
(`src/Solar_eclipse/Solar_eclipse.py` and `src/Solar_eclipse/Skript_eclipse.py`).

The geometry is shallow-embedded over an arbitrary linear ordered field `α`
(instantiated at `ℚ` for concrete evaluation and at `ℝ`, with `Real.arcsin`
for Python's `math.asin`, for the analytic statements).  The Skyfield
ephemeris layer is an external collaborator; it is modelled as a structure of
functions giving, per instant, the apparent Sun/Moon separation and apparent
distances as seen by one fixed observer.
-/

namespace Eclipse

/-- Constant `RADIUS_SUN_KM = 696_340` from `Solar_eclipse.py`. -/
def RADIUS_SUN_KM (α : Type) [LinearOrderedField α] : α := 696340

/-- Constant `RADIUS_MOON_KM = 1_737.4` from `Solar_eclipse.py` (written `17374 / 10`). -/
def RADIUS_MOON_KM (α : Type) [LinearOrderedField α] : α := 17374 / 10

/-- The partial-overlap (third-branch) formula of `eclipse`:
`chord = R_moon + R_sun - d; magnitude = chord / (2 * R_sun)`. -/
def overlapMagnitude {α : Type} [LinearOrderedField α] (d R_sun R_moon : α) : α :=
  (R_moon + R_sun - d) / (2 * R_sun)

/-- The three-branch magnitude policy of `eclipse` (`Solar_eclipse.py`, lines 66-72):
`if d >= R_sun + R_moon: 0.0 elif d <= abs(R_sun - R_moon): min(R_moon, R_sun) / R_sun
else: (R_moon + R_sun - d) / (2 * R_sun)`. -/
def magnitude {α : Type} [LinearOrderedField α] (d R_sun R_moon : α) : α :=
  if R_sun + R_moon ≤ d then 0
  else if d ≤ |R_sun - R_moon| then min R_moon R_sun / R_sun
  else overlapMagnitude d R_sun R_moon

/-- Angular radius of the Sun: `R_sun = asin(RADIUS_SUN_KM / sun_distance_km)`.
The inverse-sine function is a parameter so the definition stays usable over `ℚ`;
at `ℝ` it is instantiated with `Real.arcsin`. -/
def R_sun {α : Type} [LinearOrderedField α] (asin : α → α) (sun_distance_km : α) : α :=
  asin (RADIUS_SUN_KM α / sun_distance_km)

/-- Angular radius of the Moon: `R_moon = asin(RADIUS_MOON_KM / moon_distance_km)`. -/
def R_moon {α : Type} [LinearOrderedField α] (asin : α → α) (moon_distance_km : α) : α :=
  asin (RADIUS_MOON_KM α / moon_distance_km)

/-- The Skyfield ephemeris layer, abstracted for one fixed observer: per instant `t`
it yields the apparent Sun-Moon separation (`separation_from(...).degrees` and
`.radians`) and the apparent distances `sun_app.distance().km`,
`moon_app.distance().km`. -/
structure Ephemeris (α : Type) (T : Type) where
  sepDegrees : T → α
  sepRadians : T → α
  sunDistanceKm : T → α
  moonDistanceKm : T → α

/-- Index of the first minimal element of a list (the semantics of `np.argmin`
on a non-empty sequence); `0` on the empty list. -/
def argmin {α : Type} [LinearOrder α] : List α → ℕ
  | [] => 0
  | [_] => 0
  | x :: y :: ys =>
    let j := argmin (y :: ys)
    if x ≤ (y :: ys).getD j y then 0 else j + 1

/-- Magnitude evaluated at one instant, as the body of `eclipse` does after the
scan: separation in radians, angular radii from the apparent distances. -/
def magnitudeAt {α : Type} {T : Type} [LinearOrderedField α]
    (asin : α → α) (eph : Ephemeris α T) (t : T) : α :=
  magnitude (eph.sepRadians t)
    (R_sun asin (eph.sunDistanceKm t)) (R_moon asin (eph.moonDistanceKm t))

/-- The `eclipse` function of `Solar_eclipse.py` (lines 27-74): scan the time
samples for the minimum separation in degrees (`np.argmin`), take the sample at
that index as `t_max`, and recompute the geometry there to obtain the
magnitude.  The `minutes` argument is accepted, as in the source, but unused.
On an empty `times` sequence `np.argmin` raises, modelled by `none`. -/
def eclipse {α : Type} {T : Type} [LinearOrderedField α] (asin : α → α)
    (minutes : List α) (times : List T) (eph : Ephemeris α T) :
    Option (T × α) :=
  match times with
  | [] => none
  | t0 :: rest =>
    let separations := (t0 :: rest).map eph.sepDegrees
    let min_idx := argmin separations
    let t_max := (t0 :: rest).getD min_idx t0
    some (t_max, magnitudeAt asin eph t_max)

/-- Spec-side rendering of Operation B (section 4.2 of the spec), written from
the spec's words for comparison with the source-side `magnitudeAt`: radii
`R_sun = asin(696340 / sun_distance_km)`, `R_moon = asin(1737.4 /
moon_distance_km)`; then, tested in order: if `d ≥ R_sun + R_moon` the
magnitude is `0.0`; else if `d ≤ |R_sun − R_moon|` it is
`min(R_moon, R_sun) / R_sun`; else it is `(R_moon + R_sun − d) / (2 · R_sun)`. -/
def magnitudeSpecB {α : Type} [LinearOrderedField α] (asin : α → α)
    (d sun_distance_km moon_distance_km : α) : α :=
  let Rs := asin (696340 / sun_distance_km)
  let Rm := asin (17374 / 10 / moon_distance_km)
  if d ≥ Rs + Rm then 0
  else if d ≤ |Rs - Rm| then min Rm Rs / Rs
  else (Rm + Rs - d) / (2 * Rs)

/-- Error taxonomy of section 7 of the spec. -/
inductive EclipseError where
  | invalidInput
  | unavailableEphemeris
deriving DecidableEq

/-- Modelled from the spec: the reference script has no explicit guard for an
empty search window (`np.argmin` raises on an empty sequence, aborting the
run); the spec mandates that Operation A fail with an InvalidInput error
there.  This wraps `eclipse`, turning the empty-window failure into
`EclipseError.invalidInput`. -/
def eclipseChecked {α : Type} {T : Type} [LinearOrderedField α] (asin : α → α)
    (minutes : List α) (times : List T) (eph : Ephemeris α T) :
    Except EclipseError (T × α) :=
  match eclipse asin minutes times eph with
  | none => Except.error EclipseError.invalidInput
  | some r => Except.ok r

/-- Modelled from the spec: the batch driver (section 4.2) runs the estimator
independently per observer row (each row carrying its own search window and
observer-specific ephemeris view), reporting per-observer failures in place
without aborting the batch.  The reference script's loop has no per-row error
capture. -/
def batch {α : Type} {T : Type} [LinearOrderedField α] (asin : α → α)
    (minutes : List α) (rows : List (List T × Ephemeris α T)) :
    List (Except EclipseError (T × α)) :=
  rows.map fun r => eclipseChecked asin minutes r.1 r.2

/-- Model of `np.linspace a b n` (endpoint included, `n ≥ 2`):
sample `i` is `a + (b - a) * i / (n - 1)`. -/
def linspace {α : Type} [LinearOrderedField α] (a b : α) (n : ℕ) : List α :=
  (List.range n).map fun i : ℕ => a + (b - a) * (i : α) / ((n : α) - 1)

/-- The reference time window of `Solar_eclipse.py`, line 23:
`minutes = np.linspace(-60, 60, 1000)`, offsets in minutes around the nominal
eclipse instant 2026-08-12 18:00 UTC. -/
def minutes : List ℚ := linspace (-60) 60 1000

/-- Python `round(x, 3)` as used by `Skript_eclipse.py` (rounding to the
nearest thousandth; Mathlib's `round` breaks ties upward where Python rounds
half to even — the difference is invisible away from exact half-thousandths). -/
def round3 {α : Type} [LinearOrderedField α] [FloorRing α] (x : α) : α :=
  (round (x * 1000) : ℤ) / 1000

/-- The scan loop of `estimate_eclipse` (`Skript_eclipse.py`, lines 60-73):
walk the `zip(times, events)` pairs; at an event of code 1 (maximum eclipse)
with the Sun's altitude strictly above the horizon, return that instant with
the crude magnitude proxy `round(max(0, 1 - distance/10000), 3)`; otherwise
keep scanning; after the loop return `(None, 0.0)`. -/
def eclipseLoop {α : Type} {T : Type} [LinearOrderedField α] [FloorRing α]
    (alt : T → α) (dist : T → α) : List (T × ℕ) → Option T × α
  | [] => (none, 0)
  | (ti, ei) :: rest =>
    if ei = 1 then
      if 0 < alt ti then (some ti, round3 (max 0 (1 - dist ti / 10000)))
      else eclipseLoop alt dist rest
    else eclipseLoop alt dist rest

/-- The `estimate_eclipse` function of `Skript_eclipse.py` (lines 38-73), for
one observer: `times`/`events` come from `find_discrete`, `alt` gives the
Sun's apparent altitude in degrees at an instant, `dist` the norm of the
apparent Sun-Moon position difference in km.  An empty event list returns
`(None, 0.0)`; otherwise the zipped list is scanned. -/
def estimate_eclipse {α : Type} {T : Type} [LinearOrderedField α] [FloorRing α]
    (times : List T) (events : List ℕ) (alt : T → α) (dist : T → α) :
    Option T × α :=
  if events.length = 0 then (none, 0)
  else eclipseLoop alt dist (times.zip events)

/-- A deterministic stub ephemeris provider over `ℚ` (spec section 8: stub
providers with fixed directions/distances), one instant: separation 0.01,
Sun at 1.5e8 km, Moon at 384,400 km. -/
def stubEphQ : Ephemeris ℚ Unit :=
  ⟨fun _ => 1 / 100, fun _ => 1 / 100, fun _ => 150000000, fun _ => 384400⟩

/-- The same deterministic stub provider over `ℝ`. -/
noncomputable def stubEphR : Ephemeris ℝ Unit :=
  ⟨fun _ => 1 / 100, fun _ => 1 / 100, fun _ => 150000000, fun _ => 384400⟩

/-- A stub provider over instants `ℕ` whose separation has its unique minimum
at instant 1. -/
def stubEphScan : Ephemeris ℚ ℕ :=
  ⟨fun t => |(t : ℚ) - 1|, fun t => |(t : ℚ) - 1|, fun _ => 150000000, fun _ => 384400⟩

/-- On a non-empty list, `argmin` returns an index in range. -/
theorem argmin_lt_length {α : Type} [LinearOrder α] :
    (l : List α) → l ≠ [] → argmin l < l.length
  | [_], _ => by simp [argmin]
  | _ :: y :: ys, _ => by
    have ih := argmin_lt_length (y :: ys) (by simp)
    simp only [argmin]
    split
    · simp
    · simpa using Nat.succ_lt_succ ih

/-- The element at `argmin l` is a minimum of `l`. -/
theorem getD_argmin_le {α : Type} [LinearOrder α] :
    (l : List α) → (d : α) → ∀ j, j < l.length → l.getD (argmin l) d ≤ l.getD j d
  | [x], d, j, hj => by
    match j, hj with
    | 0, _ => simp [argmin]
  | x :: y :: ys, d, j, hj => by
    have hlt := argmin_lt_length (y :: ys) (by simp)
    have hdef : (y :: ys).getD (argmin (y :: ys)) y = (y :: ys).getD (argmin (y :: ys)) d := by
      rw [List.getD_eq_getElem _ _ hlt, List.getD_eq_getElem _ _ hlt]
    simp only [argmin]
    split
    · rename_i hx
      match j, hj with
      | 0, _ => simp
      | k + 1, hj =>
        have ih := getD_argmin_le (y :: ys) d k (by simpa using hj)
        simp only [List.getD_cons_zero, List.getD_cons_succ]
        exact le_trans (le_trans (hdef ▸ hx) ih) le_rfl
    · rename_i hx
      match j, hj with
      | 0, _ =>
        simp only [List.getD_cons_zero, List.getD_cons_succ]
        exact le_of_lt (hdef ▸ not_le.1 hx)
      | k + 1, hj =>
        simp only [List.getD_cons_succ]
        exact getD_argmin_le (y :: ys) d k (by simpa using hj)

/-- `argmin` returns the FIRST index attaining the minimum: every earlier
element is strictly larger. -/
theorem getD_argmin_first {α : Type} [LinearOrder α] :
    (l : List α) → (d : α) → ∀ j, j < argmin l → l.getD (argmin l) d < l.getD j d
  | [], _, j, hj => by simp [argmin] at hj
  | [x], d, j, hj => by simp [argmin] at hj
  | x :: y :: ys, d, j, hj => by
    have hlt := argmin_lt_length (y :: ys) (by simp)
    have hdef : (y :: ys).getD (argmin (y :: ys)) y = (y :: ys).getD (argmin (y :: ys)) d := by
      rw [List.getD_eq_getElem _ _ hlt, List.getD_eq_getElem _ _ hlt]
    simp only [argmin] at hj ⊢
    split at hj
    · omega
    · rename_i hx
      split
      · rename_i hx2
        exact absurd hx2 hx
      · match j, hj with
        | 0, _ =>
          simp only [List.getD_cons_zero, List.getD_cons_succ]
          exact hdef ▸ not_le.1 hx
        | k + 1, hj =>
          simp only [List.getD_cons_succ]
          exact getD_argmin_first (y :: ys) d k (by omega)

/-- Characterisation: if `i` is in range, minimal, and strictly below every
earlier element, then `argmin` returns exactly `i`. -/
theorem argmin_eq {α : Type} [LinearOrder α] (l : List α) (d : α) (i : ℕ)
    (hi : i < l.length)
    (hmin : ∀ j, j < l.length → l.getD i d ≤ l.getD j d)
    (hfirst : ∀ j, j < i → l.getD i d < l.getD j d) : argmin l = i := by
  have hne : l ≠ [] := by
    cases l
    · simp at hi
    · simp
  have h1 := argmin_lt_length l hne
  rcases lt_trichotomy (argmin l) i with h | h | h
  · exact absurd (getD_argmin_le l d i hi) (not_le.2 (hfirst _ h))
  · exact h
  · exact absurd (hmin _ h1) (not_le.2 (getD_argmin_first l d i h))

/-- The full-containment value rewritten: `R_moon + R_sun - |R_sun - R_moon|`
is twice the smaller radius. -/
theorem add_sub_abs_eq_two_min {α : Type} [LinearOrderedField α] (R_sun R_moon : α) :
    R_moon + R_sun - |R_sun - R_moon| = 2 * min R_moon R_sun := by
  rcases le_total R_sun R_moon with h | h
  · rw [abs_of_nonpos (by linarith), min_eq_right h]
    ring
  · rw [abs_of_nonneg (by linarith), min_eq_left h]
    ring

/-- With positive radii, each branch of `magnitude` lies in `[0, 1]`. -/
theorem magnitude_mem_Icc {α : Type} [LinearOrderedField α] (d R_sun R_moon : α)
    (hs : 0 < R_sun) (hm : 0 < R_moon) :
    0 ≤ magnitude d R_sun R_moon ∧ magnitude d R_sun R_moon ≤ 1 := by
  have htm := add_sub_abs_eq_two_min R_sun R_moon
  have hminr : min R_moon R_sun ≤ R_sun := min_le_right _ _
  have hminpos : 0 < min R_moon R_sun := lt_min hm hs
  unfold magnitude overlapMagnitude
  split
  · norm_num
  · rename_i h1
    split
    · constructor
      · exact div_nonneg hminpos.le hs.le
      · rw [div_le_one hs]
        exact hminr
    · rename_i h2
      push_neg at h1 h2
      constructor
      · exact div_nonneg (by linarith) (by linarith)
      · rw [div_le_one (by linarith)]
        linarith

/-- Closed form of the three-branch policy, with positive radii: the magnitude
is the partial-overlap line clamped between its two boundary values. -/
theorem magnitude_eq_clamp {α : Type} [LinearOrderedField α] (d R_sun R_moon : α)
    (hs : 0 < R_sun) (hm : 0 < R_moon) :
    magnitude d R_sun R_moon
      = min (max (overlapMagnitude d R_sun R_moon) 0) (min R_moon R_sun / R_sun) := by
  have htm := add_sub_abs_eq_two_min R_sun R_moon
  have hminr : min R_moon R_sun ≤ R_sun := min_le_right _ _
  have hminpos : 0 < min R_moon R_sun := lt_min hm hs
  have h2s : (0:α) < 2 * R_sun := by linarith
  have hmin_eq : min R_moon R_sun / R_sun = 2 * min R_moon R_sun / (2 * R_sun) :=
    (mul_div_mul_left _ _ two_ne_zero).symm
  unfold magnitude
  split
  · rename_i h1
    have hov : overlapMagnitude d R_sun R_moon ≤ 0 := by
      unfold overlapMagnitude
      exact div_nonpos_of_nonpos_of_nonneg (by linarith) (by linarith)
    rw [max_eq_right hov, min_eq_left (div_nonneg hminpos.le hs.le)]
  · rename_i h1
    split
    · rename_i h2
      have hov : min R_moon R_sun / R_sun ≤ overlapMagnitude d R_sun R_moon := by
        unfold overlapMagnitude
        rw [hmin_eq, div_le_div_iff_of_pos_right h2s]
        linarith
      rw [max_eq_left (le_trans (div_nonneg hminpos.le hs.le) hov), min_eq_right hov]
    · rename_i h2
      push_neg at h1 h2
      have hovpos : 0 ≤ overlapMagnitude d R_sun R_moon := by
        unfold overlapMagnitude
        exact div_nonneg (by linarith) (by linarith)
      have hovle : overlapMagnitude d R_sun R_moon ≤ min R_moon R_sun / R_sun := by
        unfold overlapMagnitude
        rw [hmin_eq, div_le_div_iff_of_pos_right h2s]
        linarith
      rw [max_eq_left hovpos, min_eq_left hovle]

/-- Inverting a successful run of `eclipse`: the returned instant is one of the
supplied samples and the returned magnitude is the geometry evaluated there. -/
theorem eclipse_eq_some {α T : Type} [LinearOrderedField α] (asin : α → α)
    (minutes : List α) (times : List T) (eph : Ephemeris α T) (t : T) (m : α)
    (h : eclipse asin minutes times eph = some (t, m)) :
    t ∈ times ∧ m = magnitudeAt asin eph t := by
  match times with
  | [] => simp [eclipse] at h
  | t0 :: rest =>
    simp only [eclipse] at h
    have h2 := Option.some.inj h
    have hlt : argmin ((t0 :: rest).map eph.sepDegrees) < (t0 :: rest).length := by
      have := argmin_lt_length ((t0 :: rest).map eph.sepDegrees) (by simp)
      simpa using this
    have ht : (t0 :: rest).getD (argmin ((t0 :: rest).map eph.sepDegrees)) t0 = t :=
      congrArg Prod.fst h2
    constructor
    · rw [← ht, List.getD_eq_getElem _ _ hlt]
      exact List.getElem_mem hlt
    · have hmagn : magnitudeAt asin eph
          ((t0 :: rest).getD (argmin ((t0 :: rest).map eph.sepDegrees)) t0) = m :=
        congrArg Prod.snd h2
      rw [← hmagn, ht]

/-- Strictly inside the partial-overlap band, `magnitude` is the linear
partial-overlap formula. -/
theorem magnitude_eq_overlap_on_Ioo {α : Type} [LinearOrderedField α]
    (d R_sun R_moon : α) (h : d ∈ Set.Ioo |R_sun - R_moon| (R_sun + R_moon)) :
    magnitude d R_sun R_moon = overlapMagnitude d R_sun R_moon := by
  obtain ⟨hlo, hhi⟩ := h
  unfold magnitude
  rw [if_neg (by linarith), if_neg (by linarith)]

/-- Sample `i` of `linspace a b n`. -/
theorem linspace_getD {α : Type} [LinearOrderedField α] (a b : α) (n : ℕ) (d : α)
    (i : ℕ) (hi : i < n) :
    (linspace a b n).getD i d = a + (b - a) * i / ((n : α) - 1) := by
  unfold linspace
  rw [List.getD_eq_getElem?_getD, List.getElem?_map, List.getElem?_range hi]
  rfl

/-- If every maximum-eclipse event in the list has the Sun at or below the
horizon, the scan loop falls through to `(None, 0.0)`. -/
theorem eclipseLoop_none {α : Type} {T : Type} [LinearOrderedField α] [FloorRing α]
    (alt : T → α) (dist : T → α) :
    (l : List (T × ℕ)) → (∀ p ∈ l, p.2 = 1 → alt p.1 ≤ 0) →
    eclipseLoop alt dist l = (none, 0)
  | [], _ => rfl
  | (ti, ei) :: rest, h => by
    have hrest : ∀ p ∈ rest, p.2 = 1 → alt p.1 ≤ 0 :=
      fun p hp => h p (List.mem_cons_of_mem _ hp)
    unfold eclipseLoop
    split
    · rename_i he
      rw [if_neg (not_lt.2 (h (ti, ei) (List.mem_cons_self _ _) he))]
      exact eclipseLoop_none alt dist rest hrest
    · exact eclipseLoop_none alt dist rest hrest

/-- C1: for every successful run of `eclipse` with positive angular radii
`R_sun = asin(696340 / sun_distance_km)` and `R_moon = asin(1737.4 /
moon_distance_km)`, the returned magnitude is exactly the spec's exhaustive
three-branch policy (no contact, full containment, partial overlap, tested in
that order) evaluated at the separation and apparent distances of the
returned instant. -/
theorem C1_three_branch_policy {α T : Type} [LinearOrderedField α] (asin : α → α)
    (mins : List α) (times : List T) (eph : Ephemeris α T) (t : T) (m : α)
    (h : eclipse asin mins times eph = some (t, m))
    (hs : 0 < R_sun asin (eph.sunDistanceKm t))
    (hm : 0 < R_moon asin (eph.moonDistanceKm t)) :
    m = magnitudeSpecB asin (eph.sepRadians t) (eph.sunDistanceKm t)
          (eph.moonDistanceKm t) := by
  obtain ⟨-, hm2⟩ := eclipse_eq_some asin mins times eph t m h
  rw [hm2]
  unfold magnitudeAt magnitude magnitudeSpecB R_sun R_moon RADIUS_SUN_KM
    RADIUS_MOON_KM overlapMagnitude
  simp only [ge_iff_le]

/-- C2: the magnitude returned by the Estimator lies in the closed interval
[0, 1] whenever both apparent distances exceed the corresponding physical
radii (equivalently, both angular radii are positive). -/
theorem C2_magnitude_unit_interval {T : Type} (mins : List ℝ) (times : List T)
    (eph : Ephemeris ℝ T) (t : T) (m : ℝ)
    (h : eclipse Real.arcsin mins times eph = some (t, m))
    (hsd : RADIUS_SUN_KM ℝ < eph.sunDistanceKm t)
    (hmd : RADIUS_MOON_KM ℝ < eph.moonDistanceKm t) :
    0 ≤ m ∧ m ≤ 1 := by
  obtain ⟨-, hm2⟩ := eclipse_eq_some Real.arcsin mins times eph t m h
  have hsunr : (0:ℝ) < RADIUS_SUN_KM ℝ := by norm_num [RADIUS_SUN_KM]
  have hmoonr : (0:ℝ) < RADIUS_MOON_KM ℝ := by norm_num [RADIUS_MOON_KM]
  have hs : 0 < R_sun Real.arcsin (eph.sunDistanceKm t) := by
    unfold R_sun
    exact Real.arcsin_pos.2 (div_pos hsunr (lt_trans hsunr hsd))
  have hm' : 0 < R_moon Real.arcsin (eph.moonDistanceKm t) := by
    unfold R_moon
    exact Real.arcsin_pos.2 (div_pos hmoonr (lt_trans hmoonr hmd))
  rw [hm2]
  exact magnitude_mem_Icc _ _ _ hs hm'

/-- C3: an empty search window makes the (spec-mandated) guarded operation
fail with an InvalidInput error, and the batch driver reports this
per-observer: row `k` with an empty window yields the error while any row `j`
is still the estimator's own result for that row, the batch length being
preserved. -/
theorem C3_empty_window_per_observer {α T : Type} [LinearOrderedField α]
    (asin : α → α) (mins : List α) (rows : List (List T × Ephemeris α T))
    (r0 : List T × Ephemeris α T) (e0 : Except EclipseError (T × α)) (k j : ℕ)
    (hk : k < rows.length) (hj : j < rows.length)
    (hempty : (rows.getD k r0).1 = []) :
    (batch asin mins rows).getD k e0 = Except.error EclipseError.invalidInput ∧
    (batch asin mins rows).getD j e0
      = eclipseChecked asin mins (rows.getD j r0).1 (rows.getD j r0).2 ∧
    (batch asin mins rows).length = rows.length := by
  have hmap : ∀ n, n < rows.length → (batch asin mins rows).getD n e0
      = eclipseChecked asin mins (rows.getD n r0).1 (rows.getD n r0).2 := by
    intro n hn
    unfold batch
    have hn2 : n < (rows.map fun r => eclipseChecked asin mins r.1 r.2).length := by
      simpa using hn
    rw [List.getD_eq_getElem _ _ hn2, List.getElem_map, List.getD_eq_getElem _ _ hn]
  refine ⟨?_, hmap j hj, by simp [batch]⟩
  rw [hmap k hk, hempty]
  rfl

/-- C4: on a non-empty window, `eclipse` returns the sample of minimal
separation, and the earliest such sample under ties: if index `i` attains the
minimum of the scanned separations and is strictly below every earlier
sample's separation, the scan selects exactly sample `i`. -/
theorem C4_min_separation_earliest {α T : Type} [LinearOrderedField α]
    (asin : α → α) (mins : List α) (t0 : T) (rest : List T)
    (eph : Ephemeris α T) (i : ℕ) (hi : i < (t0 :: rest).length)
    (hmin : ∀ j, j < (t0 :: rest).length →
      eph.sepDegrees ((t0 :: rest).getD i t0)
        ≤ eph.sepDegrees ((t0 :: rest).getD j t0))
    (hfirst : ∀ j, j < i →
      eph.sepDegrees ((t0 :: rest).getD i t0)
        < eph.sepDegrees ((t0 :: rest).getD j t0)) :
    eclipse asin mins (t0 :: rest) eph
      = some ((t0 :: rest).getD i t0, magnitudeAt asin eph ((t0 :: rest).getD i t0)) := by
  have hlen : ((t0 :: rest).map eph.sepDegrees).length = (t0 :: rest).length := by
    simp
  have harg : argmin ((t0 :: rest).map eph.sepDegrees) = i := by
    apply argmin_eq _ (eph.sepDegrees t0) i (by rw [hlen]; exact hi)
    · intro j hj
      rw [List.getD_map, List.getD_map]
      exact hmin j (by rw [← hlen]; exact hj)
    · intro j hj
      rw [List.getD_map, List.getD_map]
      exact hfirst j hj
  simp only [eclipse]
  rw [harg]

/-- C5: the instant returned by `eclipse` is always one of the supplied time
samples — never extrapolated outside the search window. -/
theorem C5_t_max_in_window {α T : Type} [LinearOrderedField α] (asin : α → α)
    (mins : List α) (times : List T) (eph : Ephemeris α T) (t : T) (m : α)
    (h : eclipse asin mins times eph = some (t, m)) : t ∈ times :=
  (eclipse_eq_some asin mins times eph t m h).1

/-- C6: within the partial-overlap branch (separations strictly between
`|R_sun - R_moon|` and `R_sun + R_moon`, radii positive), the magnitude is a
continuous, non-increasing function of the separation `d`:
`d1 ≤ d2` gives `magnitude d2 ≤ magnitude d1`. -/
theorem C6_overlap_branch_monotone (R_sun R_moon d1 d2 : ℝ)
    (hs : 0 < R_sun) (hm : 0 < R_moon)
    (h1 : d1 ∈ Set.Ioo |R_sun - R_moon| (R_sun + R_moon))
    (h2 : d2 ∈ Set.Ioo |R_sun - R_moon| (R_sun + R_moon))
    (h12 : d1 ≤ d2) :
    magnitude d2 R_sun R_moon ≤ magnitude d1 R_sun R_moon ∧
    ContinuousOn (fun d => magnitude d R_sun R_moon)
      (Set.Ioo |R_sun - R_moon| (R_sun + R_moon)) := by
  constructor
  · rw [magnitude_eq_overlap_on_Ioo d1 R_sun R_moon h1,
      magnitude_eq_overlap_on_Ioo d2 R_sun R_moon h2]
    unfold overlapMagnitude
    rw [div_le_div_iff_of_pos_right (by linarith : (0:ℝ) < 2 * R_sun)]
    linarith
  · have hc : Continuous fun d : ℝ => overlapMagnitude d R_sun R_moon := by
      unfold overlapMagnitude
      exact (continuous_const.sub continuous_id).div_const _
    exact hc.continuousOn.congr fun d hd => magnitude_eq_overlap_on_Ioo d R_sun R_moon hd

/-- C7: the horizon-gating variant reports the eclipse as not visible —
magnitude 0.0 and time none — whenever every maximum-eclipse event in the
window has the Sun's altitude not strictly above 0 degrees, regardless of
geometric contact. -/
theorem C7_horizon_gating {α T : Type} [LinearOrderedField α] [FloorRing α]
    (times : List T) (events : List ℕ) (alt dist : T → α)
    (hall : ∀ p ∈ times.zip events, p.2 = 1 → alt p.1 ≤ 0) :
    estimate_eclipse times events alt dist = (none, 0) := by
  unfold estimate_eclipse
  split
  · rfl
  · exact eclipseLoop_none alt dist _ hall

/-- C8: the reference search window `minutes = np.linspace(-60, 60, 1000)` has
exactly 1000 samples, spans the ±60-minute window (endpoints -60 and 60), is
strictly increasing, and is uniformly spaced with gap `120/999` minutes. -/
theorem C8_reference_window (i : ℕ) (hi : i + 1 < 1000) :
    minutes.length = 1000 ∧
    minutes.getD 0 0 = -60 ∧
    minutes.getD 999 0 = 60 ∧
    minutes.getD i 0 < minutes.getD (i + 1) 0 ∧
    minutes.getD (i + 1) 0 - minutes.getD i 0 = 120 / 999 := by
  have e : ∀ k : ℕ, k < 1000 → minutes.getD k 0 = -60 + 120 * (k : ℚ) / 999 := by
    intro k hk
    unfold minutes
    rw [linspace_getD _ _ _ _ k hk]
    norm_num
  refine ⟨by simp [minutes, linspace], ?_, ?_, ?_, ?_⟩
  · rw [e 0 (by norm_num)]
    norm_num
  · rw [e 999 (by norm_num)]
    norm_num
  · rw [e i (by omega), e (i + 1) hi]
    push_cast
    linarith
  · rw [e i (by omega), e (i + 1) hi]
    push_cast
    ring

/-- C9: the three-branch policy agrees at both branch boundaries — the
partial-overlap line evaluates to exactly 0 at `d = R_sun + R_moon` and to
exactly `min(R_moon, R_sun) / R_sun` at `d = |R_sun - R_moon|` — and hence
the magnitude is a continuous function of the separation on `[0, ∞)`. -/
theorem C9_branch_boundary_agreement (R_sun R_moon : ℝ)
    (hs : 0 < R_sun) (hm : 0 < R_moon) :
    overlapMagnitude (R_sun + R_moon) R_sun R_moon = 0 ∧
    overlapMagnitude |R_sun - R_moon| R_sun R_moon = min R_moon R_sun / R_sun ∧
    ContinuousOn (fun d => magnitude d R_sun R_moon) (Set.Ici 0) := by
  refine ⟨?_, ?_, ?_⟩
  · unfold overlapMagnitude
    rw [show R_moon + R_sun - (R_sun + R_moon) = 0 by ring, zero_div]
  · unfold overlapMagnitude
    rw [add_sub_abs_eq_two_min R_sun R_moon, mul_div_mul_left _ _ two_ne_zero]
  · have hc : Continuous fun d : ℝ =>
        min (max (overlapMagnitude d R_sun R_moon) 0) (min R_moon R_sun / R_sun) := by
      unfold overlapMagnitude
      exact (((continuous_const.sub continuous_id).div_const _).max
        continuous_const).min continuous_const
    have heq : (fun d : ℝ => magnitude d R_sun R_moon)
        = fun d : ℝ => min (max (overlapMagnitude d R_sun R_moon) 0)
            (min R_moon R_sun / R_sun) :=
      funext fun d => magnitude_eq_clamp d R_sun R_moon hs hm
    rw [heq]
    exact hc.continuousOn

/-- C10: the result of `eclipse` does not depend on its `minutes` argument —
two calls differing only in `minutes` return identical results. -/
theorem C10_result_independent_of_minutes {α T : Type} [LinearOrderedField α]
    (asin : α → α) (m1 m2 : List α) (times : List T) (eph : Ephemeris α T) :
    eclipse asin m1 times eph = eclipse asin m2 times eph := rfl

/-- Witness for C1 at the `ℚ` stub provider with one time sample. -/
theorem C1_three_branch_policy_w :
    eclipse (fun x => x) [] [()] stubEphQ
        = some ((), magnitudeAt (fun x => x) stubEphQ ()) ∧
    0 < R_sun (fun x => x) (stubEphQ.sunDistanceKm ()) ∧
    0 < R_moon (fun x => x) (stubEphQ.moonDistanceKm ()) ∧
    magnitudeAt (fun x => x) stubEphQ ()
      = magnitudeSpecB (fun x => x) (stubEphQ.sepRadians ())
          (stubEphQ.sunDistanceKm ()) (stubEphQ.moonDistanceKm ()) :=
  ⟨rfl, by norm_num [R_sun, RADIUS_SUN_KM, stubEphQ],
    by norm_num [R_moon, RADIUS_MOON_KM, stubEphQ],
    C1_three_branch_policy (fun x => x) [] [()] stubEphQ ()
      (magnitudeAt (fun x => x) stubEphQ ()) rfl
      (by norm_num [R_sun, RADIUS_SUN_KM, stubEphQ])
      (by norm_num [R_moon, RADIUS_MOON_KM, stubEphQ])⟩

/-- Witness for C2 at the `ℝ` stub provider with one time sample. -/
theorem C2_magnitude_unit_interval_w :
    eclipse Real.arcsin [] [()] stubEphR
        = some ((), magnitudeAt Real.arcsin stubEphR ()) ∧
    RADIUS_SUN_KM ℝ < stubEphR.sunDistanceKm () ∧
    RADIUS_MOON_KM ℝ < stubEphR.moonDistanceKm () ∧
    (0 ≤ magnitudeAt Real.arcsin stubEphR () ∧ magnitudeAt Real.arcsin stubEphR () ≤ 1) :=
  ⟨rfl, by norm_num [RADIUS_SUN_KM, stubEphR], by norm_num [RADIUS_MOON_KM, stubEphR],
    C2_magnitude_unit_interval [] [()] stubEphR ()
      (magnitudeAt Real.arcsin stubEphR ()) rfl
      (by norm_num [RADIUS_SUN_KM, stubEphR]) (by norm_num [RADIUS_MOON_KM, stubEphR])⟩

/-- Witness for C3: a two-row batch whose first row has an empty window. -/
theorem C3_empty_window_per_observer_w :
    (batch (fun x => x) [] [([], stubEphScan), ([0], stubEphScan)]).getD 0
        (Except.error EclipseError.invalidInput)
      = Except.error EclipseError.invalidInput ∧
    (batch (fun x => x) [] [([], stubEphScan), ([0], stubEphScan)]).getD 1
        (Except.error EclipseError.invalidInput)
      = eclipseChecked (fun x => x) []
          ([([], stubEphScan), ([0], stubEphScan)].getD 1 ([], stubEphScan)).1
          ([([], stubEphScan), ([0], stubEphScan)].getD 1 ([], stubEphScan)).2 ∧
    (batch (fun x => x) [] [([], stubEphScan), ([0], stubEphScan)]).length
      = [([], stubEphScan), ([0], stubEphScan)].length :=
  C3_empty_window_per_observer (fun x => x) [] [([], stubEphScan), ([0], stubEphScan)]
    ([], stubEphScan) (Except.error EclipseError.invalidInput) 0 1
    (by norm_num) (by norm_num) rfl

/-- Witness for C4: the stub scan provider over samples `[0, 1, 2]` has its
unique minimum separation at sample 1, and `eclipse` selects exactly it. -/
theorem C4_min_separation_earliest_w :
    eclipse (fun x => x) [] [0, 1, 2] stubEphScan
      = some (1, magnitudeAt (fun x => x) stubEphScan 1) :=
  C4_min_separation_earliest (fun x => x) [] 0 [1, 2] stubEphScan 1
    (by norm_num)
    (by
      intro j hj
      simp only [List.length_cons, List.length_nil] at hj
      interval_cases j <;> norm_num [stubEphScan])
    (by intro j hj; interval_cases j <;> norm_num [stubEphScan])

/-- Witness for C5 at a one-sample window. -/
theorem C5_t_max_in_window_w :
    eclipse (fun x => x) [] [5] stubEphScan
        = some (5, magnitudeAt (fun x => x) stubEphScan 5) ∧
    5 ∈ [5] :=
  ⟨rfl, C5_t_max_in_window (fun x => x) [] [5] stubEphScan 5
    (magnitudeAt (fun x => x) stubEphScan 5) rfl⟩

/-- Witness for C6 at radii 2 and 1, separations 3/2 ≤ 2 inside the band. -/
theorem C6_overlap_branch_monotone_w :
    magnitude 2 2 1 ≤ magnitude (3/2 : ℝ) 2 1 ∧
    ContinuousOn (fun d => magnitude d (2:ℝ) 1) (Set.Ioo |(2:ℝ) - 1| (2 + 1)) :=
  C6_overlap_branch_monotone 2 1 (3/2) 2 (by norm_num) (by norm_num)
    (by rw [show ((2:ℝ) - 1) = 1 by norm_num, abs_one]; constructor <;> norm_num)
    (by rw [show ((2:ℝ) - 1) = 1 by norm_num, abs_one]; constructor <;> norm_num)
    (by norm_num)

/-- Witness for C7: a single maximum-eclipse event with the Sun below the
horizon yields `(None, 0.0)`. -/
theorem C7_horizon_gating_w :
    estimate_eclipse [0] [1] (fun _ : ℕ => (-1 : ℚ)) (fun _ : ℕ => (0 : ℚ)) = (none, 0) :=
  C7_horizon_gating [0] [1] (fun _ => (-1 : ℚ)) (fun _ => (0 : ℚ)) (by decide)

/-- Witness for C8 at the first pair of samples. -/
theorem C8_reference_window_w :
    (0 : ℕ) + 1 < 1000 ∧
    (minutes.length = 1000 ∧
     minutes.getD 0 0 = -60 ∧
     minutes.getD 999 0 = 60 ∧
     minutes.getD 0 0 < minutes.getD (0 + 1) 0 ∧
     minutes.getD (0 + 1) 0 - minutes.getD 0 0 = 120 / 999) :=
  ⟨by norm_num, C8_reference_window 0 (by norm_num)⟩

/-- Witness for C9 at radii 2 and 1. -/
theorem C9_branch_boundary_agreement_w :
    overlapMagnitude ((2:ℝ) + 1) 2 1 = 0 ∧
    overlapMagnitude |(2:ℝ) - 1| 2 1 = min (1:ℝ) 2 / 2 ∧
    ContinuousOn (fun d => magnitude d (2:ℝ) 1) (Set.Ici 0) :=
  C9_branch_boundary_agreement 2 1 (by norm_num) (by norm_num)

end Eclipse
